import Mathlib

/-!
Shallow embedding of the `comb` package.

The Go sources (`src/main.go` and the unnamed duplicate file
`src/unnamed/part_000`, both `package comb`) generate 16-byte UUIDs whose
trailing `nBytes` hold a fixed-point timestamp and whose leading bytes are
filled from an entropy source.

Modelling conventions:
  * Go `byte` values are `Nat` reduced mod 256; a `uuid.UUID` (`[16]byte`)
    is a `List Nat` of length 16.
  * A Go runtime panic (out-of-range index, `time.Duration` division by
    zero) is modelled as `none` of an `Option` result; a returned Go
    `error` is modelled by the `Err` type alongside the returned value,
    mirroring Go's `(value, error)` pairs.
  * `time.Duration` values are `Nat` nanosecond counts; `uuid.Time` values
    are `Nat` counts of 100-nanosecond ticks since the Gregorian epoch.
  * `math.Round(float64(t) / float64(res))` is modelled as exact
    round-half-away-from-zero rational division on naturals; float64
    rounding noise near 2^53 is outside the scope of the properties here.
    For resolutions above 10^8 ns the Go scale underflows to 0 and the
    float conversion is implementation-defined; theorems about the stored
    value therefore carry a `0 < res` (and where needed `res ≤ 10^8`)
    hypothesis, while structural theorems hold for all inputs.
-/

namespace Comb

/-- Go `byte(e)` conversion: the low 8 bits. -/
def byte (v : Nat) : Nat := v % 256

/-- The `n` bytes written by `uint64ToBytes` (src/main.go line 31):
`b[i] = byte(v >> (1 << (n - 1 - i)))`.  Note the shift amount is the
power `2^(n-1-i)`, exactly as written in the source. -/
def uint64ToBytesWritten (n v : Nat) : List Nat :=
  (List.range n).map fun i => byte (v >>> (1 <<< (n - 1 - i)))

/-- Model of `uint64ToBytes(b, n, v)` from src/main.go lines 28-33.  The early
bounds check `_ = b[n-1]` panics (modelled `none`) when `n < 1` or
`len(b) < n`; otherwise bytes `b[0..n-1]` are overwritten and the rest of
the slice is untouched. -/
def uint64ToBytes (b : List Nat) (n v : Nat) : Option (List Nat) :=
  if n < 1 ∨ b.length < n then none
  else some (uint64ToBytesWritten n v ++ b.drop n)

/-- Model of `bytesToUint64(b, n)` from src/main.go lines 35-46.  The bounds check
`_ = b[n-1]` panics for `n < 1` or `len(b) < n`; the explicit
`len(b) > 8` check panics with "byte slice is larger than uint64"; both
are modelled as `none`.  Otherwise the result folds
`val |= uint64(b[n-1-i]) << (i*8)`. -/
def bytesToUint64 (b : List Nat) (n : Nat) : Option Nat :=
  if n < 1 ∨ b.length < n then none
  else if 8 < b.length then none
  else some ((List.range n).foldl (fun val i => val ||| (b.getD (n - 1 - i) 0 <<< (i * 8))) 0)

/-- Model of `ReadCustomTimeStamp(id, nBytes)` from src/main.go lines 55-57: decode
the trailing `nBytes` of the identifier. -/
def ReadCustomTimeStamp (id : List Nat) (nBytes : Nat) : Option Nat :=
  bytesToUint64 (id.drop (id.length - nBytes)) nBytes

/-- Model of `ReadTimeStamp(id)` from src/main.go lines 49-51. -/
def ReadTimeStamp (id : List Nat) : Option Nat :=
  ReadCustomTimeStamp id 6

/-- Errors returned by the package, and the `fmt.Errorf("%s: %w", ...)`
wrapping applied by `CustomTimeStampedUUID`. -/
inductive Err where
  /-- Error `errors.New("to many bytes to format")` in `SetTimeStamp`. -/
  | tooManyBytes : Err
  /-- Failure of `io.ReadFull` (`io.EOF` / `io.ErrUnexpectedEOF`). -/
  | readShort : Err
  /-- Wrapping `fmt.Errorf("%s: %w", fname, err)`. -/
  | wrap : String → Err → Err
deriving DecidableEq, Repr

/-- The `fname` constant of `CustomTimeStampedUUID` (src/main.go line 95). -/
def fname : String := "CustomTimeStampedUUID"

/-- Model of `res = time.Second / 10 / res` (src/main.go line 78): integer division
of `10^8` nanoseconds by the resolution. -/
def setTimeStampScale (res : Nat) : Nat := 100000000 / res

/-- Exact model of `uint64(math.Round(float64(t) / float64(k)))` for
naturals: round half away from zero. -/
def roundDiv (t k : Nat) : Nat := (2 * t + k) / (2 * k)

/-- Model of `mask := uint64(1<<uint64(nBytes*8) - 1)` (src/main.go line 85): the
shift is performed on a 64-bit word (shifts of 64 or more give 0) and the
subtraction wraps mod 2^64, so `nBytes ≥ 8` yields `2^64 - 1`. -/
def timeMask (nBytes : Nat) : Nat :=
  ((1 <<< (nBytes * 8)) % 2 ^ 64 + 2 ^ 64 - 1) % 2 ^ 64

/-- Value `timeBytes` as computed on src/main.go line 86: the rounded quotient
of the time value by the scale, masked. -/
def setTimeStampValue (nBytes t res : Nat) : Nat :=
  roundDiv t (setTimeStampScale res) &&& timeMask nBytes

/-- Model of `SetTimeStamp(id, nBytes, t, res)` from src/main.go lines 73-89.
Outer `none` models a panic (`res = 0` divides a Duration by zero;
`nBytes = 0` makes `uint64ToBytes` index `b[-1]`).  Otherwise the Go
function returns the pair (identifier, error): the unchanged identifier
with an error when `nBytes > len(id)`, else the identifier with its
trailing `nBytes` bytes overwritten, and no error. -/
def SetTimeStamp (id : List Nat) (nBytes t res : Nat) : Option (List Nat × Option Err) :=
  if res = 0 then none
  else if nBytes > id.length then some (id, some Err.tooManyBytes)
  else
    (uint64ToBytes (id.drop (id.length - nBytes)) nBytes (setTimeStampValue nBytes t res)).map
      fun tail => (id.take (id.length - nBytes) ++ tail, none)

/-- Model of `io.ReadFull(r, buf)` with the reader modelled as the list of bytes it
has available: on success the buffer is fully overwritten by the first
`len(buf)` available bytes; on a short read the available bytes are copied
into the buffer's prefix and the error flag is set. -/
def readFull (avail buf : List Nat) : List Nat × Bool :=
  if buf.length ≤ avail.length then (avail.take buf.length, true)
  else (avail ++ buf.drop avail.length, false)

/-- The all-zero `uuid.UUID` (`var id uuid.UUID`). -/
def zeroUUID : List Nat := List.replicate 16 0

/-- The RFC 4122 marker block of src/main.go lines 112-117:
`id[6] = (id[6] & 0x0f) | 0x60` and `id[8] = (id[8] & 0x3f) | 0xe0`. -/
def applyRfc4122 (id : List Nat) : List Nat :=
  let b6 := (id.getD 6 0 &&& 15) ||| 96
  let b8 := (id.getD 8 0 &&& 63) ||| 224
  (id.set 6 b6).set 8 b8

/-- Model of `CustomTimeStampedUUID(r, nBytes, t, res, rfc4122)` from src/main.go
lines 93-120.  The entropy reader is modelled by its available bytes.
Outer `none` models a panic propagating out of `SetTimeStamp`.  The `fail`
closure returns the current state of `id` (partially built) together with
the wrapped error, exactly as the Go code does. -/
def CustomTimeStampedUUID (avail : List Nat) (nBytes t res : Nat) (rfc4122 : Bool) :
    Option (List Nat × Option Err) :=
  match SetTimeStamp zeroUUID nBytes t res with
  | none => none
  | some (id1, some e) => some (id1, some (Err.wrap fname e))
  | some (id1, none) =>
    let k := id1.length - nBytes
    let filled := readFull avail (id1.take k)
    let id2 := filled.1 ++ id1.drop k
    if filled.2 then
      some (cond rfc4122 (applyRfc4122 id2) id2, none)
    else
      some (id2, some (Err.wrap fname Err.readShort))

/-- Overwriting the leading `len(id) - nBytes` bytes of `id` with entropy
bytes `rnd` (the effect of a successful `io.ReadFull(r, id[:len(id)-nBytes])`). -/
def fillRandom (id rnd : List Nat) (nBytes : Nat) : List Nat :=
  rnd.take (id.length - nBytes) ++ id.drop (id.length - nBytes)

end Comb

namespace Comb.part000

/-- Model of `uint64ToBytes` from src/unnamed/part_000 lines 14-19 (textually
identical to the src/main.go version). -/
def uint64ToBytes (b : List Nat) (n v : Nat) : Option (List Nat) :=
  if n < 1 ∨ b.length < n then none
  else some (Comb.uint64ToBytesWritten n v ++ b.drop n)

/-- Model of `SetTimeStamp` from src/unnamed/part_000 lines 81-97 (textually
identical to the src/main.go version). -/
def SetTimeStamp (id : List Nat) (nBytes t res : Nat) : Option (List Nat × Option Err) :=
  if res = 0 then none
  else if nBytes > id.length then some (id, some Err.tooManyBytes)
  else
    (uint64ToBytes (id.drop (id.length - nBytes)) nBytes (setTimeStampValue nBytes t res)).map
      fun tail => (id.take (id.length - nBytes) ++ tail, none)

/-- The four-argument `CustomTimeStampedUUID` from src/unnamed/part_000
lines 101-121: identical to the src/main.go entry point except that it has
no `rfc4122` flag and never applies the version/variant marker. -/
def CustomTimeStampedUUID (avail : List Nat) (nBytes t res : Nat) :
    Option (List Nat × Option Err) :=
  match SetTimeStamp zeroUUID nBytes t res with
  | none => none
  | some (id1, some e) => some (id1, some (Err.wrap fname e))
  | some (id1, none) =>
    let k := id1.length - nBytes
    let filled := readFull avail (id1.take k)
    let id2 := filled.1 ++ id1.drop k
    if filled.2 then
      some (id2, none)
    else
      some (id2, some (Err.wrap fname Err.readShort))

end Comb.part000

namespace Comb

/-! Basic facts about the codec and `SetTimeStamp`. -/

theorem uint64ToBytesWritten_length (n v : Nat) : (uint64ToBytesWritten n v).length = n := by
  simp [uint64ToBytesWritten]

theorem timeMask_eq {n : Nat} (h : n ≤ 8) : timeMask n = 2 ^ (8 * n) - 1 := by
  interval_cases n <;> decide

theorem setTimeStampValue_eq_mod (n t res : Nat) (h : n ≤ 8) :
    setTimeStampValue n t res = roundDiv t (setTimeStampScale res) % 2 ^ (8 * n) := by
  unfold setTimeStampValue
  rw [timeMask_eq h, Nat.and_pow_two_sub_one_eq_mod]

theorem setTimeStamp_ok (id : List Nat) (n t res : Nat) (hres : res ≠ 0) (h1 : 1 ≤ n)
    (h2 : n ≤ id.length) :
    SetTimeStamp id n t res =
      some (id.take (id.length - n) ++ uint64ToBytesWritten n (setTimeStampValue n t res),
        none) := by
  have hlen : (id.drop (id.length - n)).length = n := by rw [List.length_drop]; omega
  have hng : ¬ (n < 1 ∨ (id.drop (id.length - n)).length < n) := by rw [hlen]; omega
  have hdrop : (id.drop (id.length - n)).drop n = [] := by
    rw [List.drop_drop]
    have he : id.length - n + n = id.length := by omega
    rw [he, List.drop_length]
  unfold SetTimeStamp uint64ToBytes
  rw [if_neg hres, if_neg (show ¬ n > id.length by omega), if_neg hng]
  simp [hdrop]

theorem setTimeStamp_err (id : List Nat) (n t res : Nat) (id' : List Nat) (e : Err)
    (h : SetTimeStamp id n t res = some (id', some e)) :
    id' = id ∧ e = Err.tooManyBytes ∧ id.length < n := by
  unfold SetTimeStamp at h
  split at h
  · simp at h
  · split at h
    · rename_i hres hn
      simp only [Option.some.injEq, Prod.mk.injEq] at h
      exact ⟨h.1.symm, by simpa using h.2.symm, hn⟩
    · rcases hu : uint64ToBytes (id.drop (id.length - n)) n (setTimeStampValue n t res)
        with _ | tail
      · rw [hu] at h; simp at h
      · rw [hu] at h; simp at h

theorem setTimeStamp_ok_shape (id : List Nat) (n t res : Nat) (id' : List Nat)
    (h : SetTimeStamp id n t res = some (id', none)) :
    res ≠ 0 ∧ 1 ≤ n ∧ n ≤ id.length ∧
      id' = id.take (id.length - n) ++ uint64ToBytesWritten n (setTimeStampValue n t res) := by
  unfold SetTimeStamp at h
  split at h
  · simp at h
  · split at h
    · simp at h
    · rename_i hres hn
      rcases hu : uint64ToBytes (id.drop (id.length - n)) n (setTimeStampValue n t res)
        with _ | tail
      · rw [hu] at h; simp at h
      · rw [hu] at h
        simp only [Option.map_some', Option.some.injEq, Prod.mk.injEq] at h
        unfold uint64ToBytes at hu
        split at hu
        · simp at hu
        · rename_i hguard
          have hg1 : 1 ≤ n := by omega
          have hg2 : ¬ (id.drop (id.length - n)).length < n := by
            rcases not_or.mp hguard with ⟨_, h2⟩; exact h2
          rw [List.length_drop] at hg2
          have hnle : n ≤ id.length := by omega
          have hdrop : (id.drop (id.length - n)).drop n = [] := by
            rw [List.drop_drop]
            have he : id.length - n + n = id.length := by omega
            rw [he, List.drop_length]
          simp only [Option.some.injEq] at hu
          refine ⟨hres, hg1, hnle, ?_⟩
          rw [← h.1, ← hu, hdrop, List.append_nil]

theorem setTimeStamp_length (id : List Nat) (n t res : Nat) (id' : List Nat)
    (h : SetTimeStamp id n t res = some (id', none)) : id'.length = id.length := by
  obtain ⟨-, -, hle, hsh⟩ := setTimeStamp_ok_shape id n t res id' h
  subst hsh
  rw [List.length_append, List.length_take, uint64ToBytesWritten_length]
  omega

end Comb

namespace Comb

/-! Claim theorems. -/

/-- C1: the fixed-width round-trip law fails on the code.  At width 1 and
value 1 the encoder `uint64ToBytes` writes `byte(1 >> (1 << 0)) = 0` into
the buffer, and the decoder `bytesToUint64` then returns 0, not the
encoded value 1. -/
theorem C1_roundtrip_bug :
    uint64ToBytes [0] 1 1 = some [0] ∧ bytesToUint64 [0] 1 = some 0 ∧ (0 : Nat) ≠ 1 := by
  decide

/-- C2: the encoder is not big-endian.  At width 2 and value 256 the
claimed big-endian bytes are `byte(256 >> 8) = 1` and `byte(256 >> 0) = 0`,
but `uint64ToBytes` writes `[byte(256 >> 2), byte(256 >> 1)] = [64, 128]`
because its shift amount is `1 << (n-1-i)`, not `8*(n-1-i)`. -/
theorem C2_bigendian_bug :
    uint64ToBytes [0, 0] 2 256 = some [64, 128] ∧
      byte (256 >>> (8 * (2 - 1 - 0))) = 1 ∧ byte (256 >>> (8 * (2 - 1 - 1))) = 0 ∧
      ([64, 128] : List Nat) ≠ [1, 0] := by
  decide

/-- C3 counterexample: at resolution 1 ms (10^6 ns) and t = 10000 ticks
(exactly one millisecond), the rounded count of resolution-sized intervals
in t is 1, but `SetTimeStamp` computes the stored value 100, because the
code's scale is `10^8 ns / res`, not `res / 100 ns`. -/
theorem C3_scale_cex :
    setTimeStampValue 6 10000 1000000 = 100 ∧
      roundDiv 10000 (1000000 / 100) = 1 ∧ (100 : Nat) ≠ 1 := by
  decide

/-- C3 amended: the stored value is `round(t / k) mod 2^(8n)` for
`k = (10^8 ns) / res` (integer division), with round-half-away-from-zero;
at the canonical resolution 0.1 ms (10^5 ns) the code's scale coincides
with the tick count `res / 100 ns` of one resolution interval, so there
the stored value is the rounded interval count reduced mod `2^(8n)`. -/
theorem C3_stored_units (n t : Nat) (h1 : 1 ≤ n) (h2 : n ≤ 8) :
    setTimeStampValue n t 100000 = roundDiv t (100000 / 100) % 2 ^ (8 * n) := by
  rw [setTimeStampValue_eq_mod n t 100000 h2]
  norm_num [setTimeStampScale]

/-- Witness for `C3_stored_units` at n = 6, t = 1500 (the rounded quotient
1500/1000 is 2, exhibiting round-half-away-from-zero, not truncation). -/
theorem C3_stored_units_witness :
    1 ≤ 6 ∧ 6 ≤ 8 ∧
      setTimeStampValue 6 1500 100000 = roundDiv 1500 (100000 / 100) % 2 ^ (8 * 6) :=
  ⟨by decide, by decide, C3_stored_units 6 1500 (by decide) (by decide)⟩

/-- C5 counterexample: `SetTimeStamp` with nBytes = 9 (outside [1,8])
succeeds without error rather than failing; the only width check in the
code is `nBytes > len(id)`, i.e. 16. -/
theorem C5_width_cex : SetTimeStamp zeroUUID 9 0 100000 = some (zeroUUID, none) := by
  decide

/-- C5 amended: `SetTimeStamp` returns an error only for `nBytes > 16`;
for every nBytes in [1,16] (in particular all of [9,16]) it succeeds, and
for `nBytes > 16` it returns the unchanged identifier with the
"to many bytes to format" error. -/
theorem C5_width_check (n t res : Nat) (h1 : 1 ≤ n) (hres : 0 < res) :
    ((∃ id', SetTimeStamp zeroUUID n t res = some (id', none)) ↔ n ≤ 16) ∧
      (16 < n → SetTimeStamp zeroUUID n t res = some (zeroUUID, some Err.tooManyBytes)) := by
  have hres' : res ≠ 0 := by omega
  have hzl : zeroUUID.length = 16 := by decide
  constructor
  · constructor
    · rintro ⟨id', hid⟩
      by_contra hgt
      obtain ⟨-, -, hle, -⟩ := setTimeStamp_ok_shape zeroUUID n t res id' hid
      omega
    · intro hle
      exact ⟨_, setTimeStamp_ok zeroUUID n t res hres' h1 (by omega)⟩
  · intro hgt
    unfold SetTimeStamp
    rw [if_neg hres', if_pos (by omega)]

/-- Witness for `C5_width_check` at n = 9, t = 0, res = 10^5. -/
theorem C5_width_check_witness :
    1 ≤ 9 ∧ 0 < 100000 ∧
      (((∃ id', SetTimeStamp zeroUUID 9 0 100000 = some (id', none)) ↔ 9 ≤ 16) ∧
        (16 < 9 → SetTimeStamp zeroUUID 9 0 100000 = some (zeroUUID, some Err.tooManyBytes))) :=
  ⟨by decide, by decide, C5_width_check 9 0 100000 (by decide) (by decide)⟩

/-- C10: the four-argument generator of src/unnamed/part_000 returns
exactly the same (identifier, error) result as the five-argument generator
of src/main.go called with the rfc4122 flag false, for every reader,
width, time value and resolution. -/
theorem C10_entry_points_equivalent (avail : List Nat) (n t res : Nat) :
    part000.CustomTimeStampedUUID avail n t res = CustomTimeStampedUUID avail n t res false :=
  rfl

end Comb

namespace Comb

/-- C4 counterexample: when the entropy source fails (here: no bytes
available) after the timestamp has been written, the generator returns the
partially built identifier — here with stored value 2 encoded in the
trailing bytes — together with the wrapped error, not the all-zero
identifier. -/
theorem C4_partial_on_failure_cex :
    CustomTimeStampedUUID [] 6 2000 100000 true =
      some ([0, 0, 0, 0, 0, 0, 0, 0, 0, 0, 0, 0, 0, 0, 0, 1],
        some (Err.wrap fname Err.readShort)) ∧
      ([0, 0, 0, 0, 0, 0, 0, 0, 0, 0, 0, 0, 0, 0, 0, 1] : List Nat) ≠ zeroUUID := by
  decide

/-- C4 amended: every failure of `CustomTimeStampedUUID` carries an error
wrapped with the function name identifying the failing operation, and on a
timestamp-width failure the returned identifier is still the zero
identifier; on an entropy failure the identifier returned alongside the
error is the partially built buffer, so callers must rely on the error
value, not on the identifier being zero. -/
theorem C4_error_wrapping (avail : List Nat) (n t res : Nat) (rfc : Bool) (id : List Nat)
    (e : Err) (h : CustomTimeStampedUUID avail n t res rfc = some (id, some e)) :
    (∃ e0, e = Err.wrap fname e0) ∧
      (e = Err.wrap fname Err.tooManyBytes → id = zeroUUID) := by
  unfold CustomTimeStampedUUID at h
  rcases hS : SetTimeStamp zeroUUID n t res with _ | ⟨id1, e?⟩
  · rw [hS] at h; simp at h
  · rw [hS] at h
    rcases e? with _ | e1
    · simp only at h
      split at h
      · simp at h
      · simp only [Option.some.injEq, Prod.mk.injEq, Option.some.injEq] at h
        obtain ⟨hid, he⟩ := h
        refine ⟨⟨Err.readShort, he.symm⟩, fun hcontra => ?_⟩
        rw [← he] at hcontra
        simp at hcontra
    · simp only [Option.some.injEq, Prod.mk.injEq, Option.some.injEq] at h
      obtain ⟨hid, he⟩ := h
      obtain ⟨hideq, hetm, hlen⟩ := setTimeStamp_err zeroUUID n t res id1 e1 hS
      refine ⟨⟨e1, he.symm⟩, fun _ => ?_⟩
      rw [← hid, hideq]

/-- Witness for `C4_error_wrapping`: width 17 exceeds the identifier, the
error is wrapped, and the returned identifier is zero. -/
theorem C4_error_wrapping_witness :
    CustomTimeStampedUUID [] 17 0 100000 true =
      some (zeroUUID, some (Err.wrap fname Err.tooManyBytes)) ∧
      ((∃ e0, Err.wrap fname Err.tooManyBytes = Err.wrap fname e0) ∧
        (Err.wrap fname Err.tooManyBytes = Err.wrap fname Err.tooManyBytes →
          zeroUUID = zeroUUID)) :=
  ⟨by decide,
    C4_error_wrapping [] 17 0 100000 true zeroUUID (Err.wrap fname Err.tooManyBytes)
      (by decide)⟩

/-- C6: for widths in [1,8] and a stored-unit count of at least `2^(8n)`,
`SetTimeStamp` succeeds, and the value it encodes is the count reduced
modulo `2^(8n)` — the mask wraps the value instead of raising an error. -/
theorem C6_wraparound (n t res : Nat) (h1 : 1 ≤ n) (h2 : n ≤ 8) (hres : 0 < res)
    (hbig : 2 ^ (8 * n) ≤ roundDiv t (setTimeStampScale res)) :
    (∃ id', SetTimeStamp zeroUUID n t res = some (id', none)) ∧
      setTimeStampValue n t res = roundDiv t (setTimeStampScale res) % 2 ^ (8 * n) ∧
      setTimeStampValue n t res ≠ roundDiv t (setTimeStampScale res) := by
  have hzl : zeroUUID.length = 16 := by decide
  refine ⟨⟨_, setTimeStamp_ok zeroUUID n t res (by omega) h1 (by omega)⟩,
    setTimeStampValue_eq_mod n t res h2, ?_⟩
  rw [setTimeStampValue_eq_mod n t res h2]
  have hpos : 0 < 2 ^ (8 * n) := Nat.two_pow_pos (8 * n)
  have hlt : roundDiv t (setTimeStampScale res) % 2 ^ (8 * n) < 2 ^ (8 * n) :=
    Nat.mod_lt _ hpos
  omega

/-- Witness for `C6_wraparound`: width 1, resolution 10^5 ns, t = 256000
ticks gives stored count 256 = 2^8, which wraps to 0. -/
theorem C6_wraparound_witness :
    1 ≤ 1 ∧ 1 ≤ 8 ∧ 0 < 100000 ∧
      2 ^ (8 * 1) ≤ roundDiv 256000 (setTimeStampScale 100000) ∧
      ((∃ id', SetTimeStamp zeroUUID 1 256000 100000 = some (id', none)) ∧
        setTimeStampValue 1 256000 100000 =
          roundDiv 256000 (setTimeStampScale 100000) % 2 ^ (8 * 1) ∧
        setTimeStampValue 1 256000 100000 ≠ roundDiv 256000 (setTimeStampScale 100000)) :=
  ⟨by decide, by decide, by decide, by decide,
    C6_wraparound 1 256000 100000 (by decide) (by decide) (by decide) (by decide)⟩

/-- C9: requesting 9 bytes from an 8-byte slice fails (the bounds check
panics), any slice longer than 8 bytes is rejected by the explicit panic
guard for every width, and under the precondition 1 ≤ width ≤ 8 on a
16-byte identifier — the slice shape `ReadCustomTimeStamp` produces — the
decoder always returns a value, so the failure branches are unreachable. -/
theorem C9_decode_width_guard (b bl id : List Nat) (n m : Nat)
    (hb : b.length = 8) (hbl : 8 < bl.length) (hid : id.length = 16)
    (h1 : 1 ≤ m) (h2 : m ≤ 8) :
    bytesToUint64 b 9 = none ∧ bytesToUint64 bl n = none ∧
      ∃ v, ReadCustomTimeStamp id m = some v := by
  refine ⟨?_, ?_, ?_⟩
  · unfold bytesToUint64
    rw [if_pos (Or.inr (by omega))]
  · unfold bytesToUint64
    by_cases hg : n < 1 ∨ bl.length < n
    · rw [if_pos hg]
    · rw [if_neg hg, if_pos hbl]
  · unfold ReadCustomTimeStamp bytesToUint64
    have hlen : (id.drop (id.length - m)).length = m := by rw [List.length_drop]; omega
    rw [if_neg (by rw [hlen]; omega), if_neg (by rw [hlen]; omega)]
    exact ⟨_, rfl⟩

/-- Witness for `C9_decode_width_guard` on concrete 8-, 9- and 16-byte
buffers with widths 9, 3 and 6. -/
theorem C9_decode_width_guard_witness :
    (List.replicate 8 (255 : Nat)).length = 8 ∧
      8 < (List.replicate 9 (1 : Nat)).length ∧
      (List.replicate 16 (2 : Nat)).length = 16 ∧ 1 ≤ 6 ∧ 6 ≤ 8 ∧
      (bytesToUint64 (List.replicate 8 255) 9 = none ∧
        bytesToUint64 (List.replicate 9 1) 3 = none ∧
        ∃ v, ReadCustomTimeStamp (List.replicate 16 2) 6 = some v) :=
  ⟨by decide, by decide, by decide, by decide, by decide,
    C9_decode_width_guard (List.replicate 8 255) (List.replicate 9 1) (List.replicate 16 2)
      3 6 (by decide) (by decide) (by decide) (by decide) (by decide)⟩

end Comb

namespace Comb

/-- C8: `SetTimeStamp` only rewrites the trailing `nBytes` of the
identifier — the leading `16 - nBytes` bytes are returned unchanged — and
writing the timestamp commutes with overwriting the disjoint leading
region with entropy bytes: filling first and then stamping yields exactly
the stamped identifier with its leading region filled. -/
theorem C8_region_isolation (id rnd : List Nat) (n t res : Nat) (hlen : id.length = 16)
    (hrnd : 16 - n ≤ rnd.length) (h1 : 1 ≤ n) (h2 : n ≤ 16) (hres : 0 < res) :
    (∃ id', SetTimeStamp id n t res = some (id', none) ∧
      id'.take (16 - n) = id.take (16 - n)) ∧
    SetTimeStamp (fillRandom id rnd n) n t res =
      (SetTimeStamp id n t res).map fun p => (fillRandom p.1 rnd n, p.2) := by
  have hres' : res ≠ 0 := by omega
  have hok := setTimeStamp_ok id n t res hres' h1 (by omega)
  rw [hlen] at hok
  have hw : (uint64ToBytesWritten n (setTimeStampValue n t res)).length = n :=
    uint64ToBytesWritten_length n _
  have htake : (id.take (16 - n)).length = 16 - n := by rw [List.length_take]; omega
  have hrt : (rnd.take (16 - n)).length = 16 - n := by rw [List.length_take]; omega
  have hfill : fillRandom id rnd n = rnd.take (16 - n) ++ id.drop (16 - n) := by
    unfold fillRandom; rw [hlen]
  constructor
  · exact ⟨_, hok, List.take_left' htake⟩
  · have hfl : (fillRandom id rnd n).length = 16 := by
      rw [hfill, List.length_append, hrt, List.length_drop]; omega
    have hok2 := setTimeStamp_ok (fillRandom id rnd n) n t res hres' h1 (by omega)
    rw [hfl] at hok2
    rw [hok2, hok, Option.map_some']
    simp only [Option.some.injEq, Prod.mk.injEq]
    refine ⟨?_, trivial⟩
    rw [hfill, List.take_left' hrt]
    unfold fillRandom
    rw [List.length_append, htake, hw]
    have h16 : 16 - n + n - n = 16 - n := by omega
    rw [h16, List.drop_left' htake]

/-- Witness for `C8_region_isolation` on a concrete identifier, entropy
list, width 6 and the canonical resolution. -/
theorem C8_region_isolation_witness :
    (List.replicate 16 (9 : Nat)).length = 16 ∧
      16 - 6 ≤ (List.replicate 12 (7 : Nat)).length ∧ 1 ≤ 6 ∧ 6 ≤ 16 ∧ 0 < 100000 ∧
      ((∃ id', SetTimeStamp (List.replicate 16 9) 6 2000 100000 = some (id', none) ∧
          id'.take (16 - 6) = (List.replicate 16 (9 : Nat)).take (16 - 6)) ∧
        SetTimeStamp (fillRandom (List.replicate 16 9) (List.replicate 12 7) 6) 6 2000 100000 =
          (SetTimeStamp (List.replicate 16 9) 6 2000 100000).map
            fun p => (fillRandom p.1 (List.replicate 12 7) 6, p.2)) :=
  ⟨by decide, by decide, by decide, by decide, by decide,
    C8_region_isolation (List.replicate 16 9) (List.replicate 12 7) 6 2000 100000
      (by decide) (by decide) (by decide) (by decide) (by decide)⟩

end Comb

namespace Comb

theorem or96_shift {x : Nat} (h : x < 16) : (x ||| 96) >>> 4 = 6 := by
  interval_cases x <;> rfl

theorem or96_and {x : Nat} (h : x < 16) : (x ||| 96) &&& 15 = x := by
  interval_cases x <;> rfl

theorem or224_shift {x : Nat} (h : x < 64) : (x ||| 224) >>> 5 = 7 := by
  interval_cases x <;> rfl

theorem or224_and {x : Nat} (h : x < 64) : (x ||| 224) &&& 31 = x &&& 31 := by
  interval_cases x <;> rfl

/-- C7 counterexample: with an all-zero entropy fill, the marker step
turns byte 8 from 0 into 0xe0 = 224: bit 5 — outside the top two variant
bits — flips from 0 to 1, so the bits of byte 8 other than the top two are
not left untouched (`id[8] = (id[8] & 0x3f) | 0xe0` ORs in three bits). -/
theorem C7_untouched_bits_cex :
    CustomTimeStampedUUID (List.replicate 10 0) 6 0 100000 false = some (zeroUUID, none) ∧
      CustomTimeStampedUUID (List.replicate 10 0) 6 0 100000 true =
        some ([0, 0, 0, 0, 0, 0, 96, 0, 224, 0, 0, 0, 0, 0, 0, 0], none) ∧
      ([0, 0, 0, 0, 0, 0, 96, 0, 224, 0, 0, 0, 0, 0, 0, 0] : List Nat).getD 8 0 &&& 63 ≠
        zeroUUID.getD 8 0 &&& 63 := by
  decide

/-- C7 amended: on every successful marked generation, byte 6's high
nibble is the version constant 6 with its low nibble untouched, and byte
8's top THREE bits are the variant constant 0b111 (RFC 4122 "future")
with its low five bits untouched; every byte other than bytes 6 and 8 is
exactly what the unmarked run produces, regardless of the entropy fill. -/
theorem ctsu_read_ok (avail : List Nat) (n t res : Nat) (rfc : Bool) (id1 : List Nat)
    (hS : SetTimeStamp zeroUUID n t res = some (id1, none))
    (hbl : (id1.take (id1.length - n)).length ≤ avail.length) :
    CustomTimeStampedUUID avail n t res rfc =
      some (cond rfc
        (applyRfc4122
          (avail.take (id1.take (id1.length - n)).length ++ id1.drop (id1.length - n)))
        (avail.take (id1.take (id1.length - n)).length ++ id1.drop (id1.length - n)),
        none) := by
  unfold CustomTimeStampedUUID
  rw [hS]
  simp only [readFull, hbl, if_true]

theorem ctsu_ok_inv (avail : List Nat) (n t res : Nat) (rfc : Bool) (id : List Nat)
    (h : CustomTimeStampedUUID avail n t res rfc = some (id, none)) :
    ∃ id1, SetTimeStamp zeroUUID n t res = some (id1, none) ∧
      (id1.take (id1.length - n)).length ≤ avail.length ∧
      id = cond rfc
        (applyRfc4122
          (avail.take (id1.take (id1.length - n)).length ++ id1.drop (id1.length - n)))
        (avail.take (id1.take (id1.length - n)).length ++ id1.drop (id1.length - n)) := by
  unfold CustomTimeStampedUUID at h
  rcases hS : SetTimeStamp zeroUUID n t res with _ | ⟨id1, e?⟩
  · rw [hS] at h; simp at h
  rw [hS] at h
  rcases e? with _ | e1
  case some => simp at h
  by_cases hbl : (id1.take (id1.length - n)).length ≤ avail.length
  case neg =>
    simp only [readFull, hbl, if_false] at h
    simp at h
  simp only [readFull, hbl, if_true] at h
  simp only [Option.some.injEq, Prod.mk.injEq] at h
  exact ⟨id1, rfl, hbl, h.1.symm⟩

/-- C7 amended: on every successful marked generation, byte 6's high
nibble is the version constant 6 with its low nibble untouched, and byte
8's top THREE bits are the variant constant 0b111 (RFC 4122 "future")
with its low five bits untouched; every byte other than bytes 6 and 8 is
exactly what the unmarked run produces, regardless of the entropy fill. -/
theorem C7_format_marker (avail : List Nat) (n t res : Nat) (id : List Nat)
    (h : CustomTimeStampedUUID avail n t res true = some (id, none)) :
    ∃ pre, CustomTimeStampedUUID avail n t res false = some (pre, none) ∧
      id = applyRfc4122 pre ∧
      id.getD 6 0 >>> 4 = 6 ∧ id.getD 8 0 >>> 5 = 7 ∧
      id.getD 6 0 &&& 15 = pre.getD 6 0 &&& 15 ∧
      id.getD 8 0 &&& 31 = pre.getD 8 0 &&& 31 ∧
      ∀ i, i ≠ 6 → i ≠ 8 → id.getD i 0 = pre.getD i 0 := by
  obtain ⟨id1, hS, hbl, hid⟩ := ctsu_ok_inv avail n t res true id h
  obtain ⟨-, -, hn, -⟩ := setTimeStamp_ok_shape zeroUUID n t res id1 hS
  have hlen1 : id1.length = 16 := by
    have := setTimeStamp_length zeroUUID n t res id1 hS
    simpa [zeroUUID] using this
  rw [zeroUUID, List.length_replicate] at hn
  set pre := avail.take (id1.take (id1.length - n)).length ++ id1.drop (id1.length - n)
    with hpre
  have hfalse := ctsu_read_ok avail n t res false id1 hS hbl
  rw [cond_false] at hfalse
  rw [cond_true] at hid
  rw [List.length_take, hlen1] at hbl
  have hplen : pre.length = 16 := by
    rw [hpre, List.length_append, List.length_take, List.length_take, List.length_drop,
      hlen1]
    omega
  refine ⟨pre, hfalse, hid, ?_⟩
  have h6 : id.getD 6 0 = (pre.getD 6 0 &&& 15) ||| 96 := by
    rw [hid]
    simp [applyRfc4122, List.getD, List.getElem?_set, hplen]
  have h8 : id.getD 8 0 = (pre.getD 8 0 &&& 63) ||| 224 := by
    rw [hid]
    simp [applyRfc4122, List.getD, List.getElem?_set, hplen]
  have hx6 : pre.getD 6 0 &&& 15 < 16 := by
    have := Nat.and_le_right (n := pre.getD 6 0) (m := 15)
    omega
  have hx8 : pre.getD 8 0 &&& 63 < 64 := by
    have := Nat.and_le_right (n := pre.getD 8 0) (m := 63)
    omega
  refine ⟨?_, ?_, ?_, ?_, ?_⟩
  · rw [h6]; exact or96_shift hx6
  · rw [h8]; exact or224_shift hx8
  · rw [h6, or96_and hx6]
  · rw [h8, or224_and hx8, Nat.and_assoc]
    have h63 : (63 : Nat) &&& 31 = 31 := by decide
    rw [h63]
  · intro i hi6 hi8
    rw [hid]
    simp [applyRfc4122, List.getD, List.getElem?_set, Ne.symm hi6, Ne.symm hi8]

/-- Witness for `C7_format_marker` on a concrete all-zero entropy fill. -/
theorem C7_format_marker_witness :
    CustomTimeStampedUUID (List.replicate 10 0) 6 0 100000 true =
      some ([0, 0, 0, 0, 0, 0, 96, 0, 224, 0, 0, 0, 0, 0, 0, 0], none) ∧
      ∃ pre, CustomTimeStampedUUID (List.replicate 10 0) 6 0 100000 false =
          some (pre, none) ∧
        ([0, 0, 0, 0, 0, 0, 96, 0, 224, 0, 0, 0, 0, 0, 0, 0] : List Nat) =
          applyRfc4122 pre ∧
        ([0, 0, 0, 0, 0, 0, 96, 0, 224, 0, 0, 0, 0, 0, 0, 0] : List Nat).getD 6 0 >>> 4 = 6 ∧
        ([0, 0, 0, 0, 0, 0, 96, 0, 224, 0, 0, 0, 0, 0, 0, 0] : List Nat).getD 8 0 >>> 5 = 7 ∧
        ([0, 0, 0, 0, 0, 0, 96, 0, 224, 0, 0, 0, 0, 0, 0, 0] : List Nat).getD 6 0 &&& 15 =
          pre.getD 6 0 &&& 15 ∧
        ([0, 0, 0, 0, 0, 0, 96, 0, 224, 0, 0, 0, 0, 0, 0, 0] : List Nat).getD 8 0 &&& 31 =
          pre.getD 8 0 &&& 31 ∧
        ∀ i, i ≠ 6 → i ≠ 8 →
          ([0, 0, 0, 0, 0, 0, 96, 0, 224, 0, 0, 0, 0, 0, 0, 0] : List Nat).getD i 0 =
            pre.getD i 0 :=
  ⟨by decide,
    C7_format_marker (List.replicate 10 0) 6 0 100000
      [0, 0, 0, 0, 0, 0, 96, 0, 224, 0, 0, 0, 0, 0, 0, 0] (by decide)⟩

end Comb
